import Mathlib

/-
  Verification of the MADRL repository (multi-aircraft collision-avoidance
  environment plus the rltools DQN / neural-network toolkit) against its
  natural-language specification.

  The Python sources are shallowly embedded:
  * real-valued (float) computations become functions over `ℝ`
    (`madrl_environments/cas/multi_aircraft.py`, `rltools/nn.py`);
  * exact/bookkeeping computations (the DQN target arithmetic and the
    checkpoint-hash string construction) are embedded over `ℚ` / `String`
    so that concrete instances are decidable;
  * in-place mutation of aircraft objects and of the environment's aircraft
    list becomes explicit state passing.
-/

open Real

/- Constants from multi_aircraft.py. -/

/-- DEST_THRESHOLD = 100 (m). -/
def DEST_THRESHOLD : ℝ := 100

/-- SENSING_RANGE = 1000 (m). -/
def SENSING_RANGE : ℝ := 1000

/-- NMAC_RANGE = 150 (m). -/
def NMAC_RANGE : ℝ := 150

/-- MIN_V = 15 (m/s). -/
def MIN_V : ℝ := 15

/-- MAX_V = 45 (m/s). -/
def MAX_V : ℝ := 45

/-- MAX_ACC = 5 (m/s^2). -/
def MAX_ACC : ℝ := 5

/-- MAX_TURN_RATE = np.deg2rad(10) = 10 * (pi / 180) (rad/s). -/
noncomputable def MAX_TURN_RATE : ℝ := 10 * (Real.pi / 180)

/-- DT = 1 (s). -/
def DT : ℝ := 1

/-- MAX_TIME_STEPS = 2000, the module-level constant used by
`MultiAircraftEnv.step`'s done check. -/
def MAX_TIME_STEPS : ℕ := 2000

/-- TERM_PAIRWISE_OBS = [1] * 4, the sentinel block for an empty sensor slot. -/
def TERM_PAIRWISE_OBS : List ℝ := [1, 1, 1, 1]

/- Python's float modulo `a % b` (for b > 0 it returns a value in [0, b)
with the sign of b): a - b * floor (a / b). -/

/-- Python modulo on reals: `a % b = a - b * ⌊a / b⌋`. -/
noncomputable def pymod (a b : ℝ) : ℝ := a - b * ⌊a / b⌋

/-- Embedding of `norm_angle(angle) = (angle + pi) % (2 * pi) - pi`
(multi_aircraft.py line 60). -/
noncomputable def norm_angle (angle : ℝ) : ℝ := pymod (angle + Real.pi) (2 * Real.pi) - Real.pi

lemma pymod_eq_fract (a b : ℝ) (hb : b ≠ 0) : pymod a b = b * Int.fract (a / b) := by
  unfold pymod Int.fract
  rw [mul_sub, mul_div_cancel₀ _ hb]

lemma pymod_nonneg (a b : ℝ) (hb : 0 < b) : 0 ≤ pymod a b := by
  rw [pymod_eq_fract a b hb.ne']
  exact mul_nonneg hb.le (Int.fract_nonneg _)

lemma pymod_lt (a b : ℝ) (hb : 0 < b) : pymod a b < b := by
  rw [pymod_eq_fract a b hb.ne']
  calc b * Int.fract (a / b) < b * 1 := by
        exact mul_lt_mul_of_pos_left (Int.fract_lt_one _) hb
    _ = b := mul_one b

/-- The actual range of `norm_angle`: the half-open interval [-pi, pi). -/
lemma norm_angle_mem_Ico (angle : ℝ) : norm_angle angle ∈ Set.Ico (-Real.pi) Real.pi := by
  unfold norm_angle
  constructor
  · have h := pymod_nonneg (angle + Real.pi) (2 * Real.pi) Real.two_pi_pos
    linarith
  · have h := pymod_lt (angle + Real.pi) (2 * Real.pi) Real.two_pi_pos
    linarith

lemma norm_angle_pi : norm_angle Real.pi = -Real.pi := by
  unfold norm_angle
  rw [pymod_eq_fract _ _ Real.two_pi_pos.ne']
  have h : (Real.pi + Real.pi) / (2 * Real.pi) = 1 := by
    rw [two_mul]
    exact div_self (by positivity)
  rw [h]
  simp

lemma norm_angle_neg_pi : norm_angle (-Real.pi) = -Real.pi := by
  unfold norm_angle
  rw [pymod_eq_fract _ _ Real.two_pi_pos.ne']
  simp

/-- Periodicity of `norm_angle` (the "language-neutral modulo" behavior). -/
lemma norm_angle_add_two_pi (angle : ℝ) : norm_angle (angle + 2 * Real.pi) = norm_angle angle := by
  unfold norm_angle pymod
  have h : (angle + 2 * Real.pi + Real.pi) / (2 * Real.pi) =
      (angle + Real.pi) / (2 * Real.pi) + 1 := by
    field_simp
    ring
  rw [h, Int.floor_add_one]
  push_cast
  ring

/- Aircraft state (class Aircraft). In-place mutation of the Python object is
modelled by returning an updated record. The observation list `obs` is the
aircraft's stored observation vector. -/

/-- Kinematic and goal state of one aircraft (fields of `Aircraft.__init__`). -/
structure Aircraft where
  x : ℝ
  y : ℝ
  heading : ℝ
  v : ℝ
  turn_rate : ℝ
  dest_x : ℝ
  dest_y : ℝ
  dist_to_dest : ℝ
  init_dist_to_dest : ℝ
  prev_dist_to_dest : ℝ
  obs : List ℝ

/-- Embedding of `agent_dist(a, b) = sqrt((a.x-b.x)**2 + (a.y-b.y)**2)`. -/
noncomputable def agent_dist (a b : Aircraft) : ℝ :=
  Real.sqrt ((a.x - b.x) ^ 2 + (a.y - b.y) ^ 2)

/-- Embedding of `closer(a, b, ref)`: true iff `agent_dist(a, ref) <= agent_dist(b, ref)`. -/
noncomputable def closer (a b ref : Aircraft) : Bool :=
  decide (agent_dist a ref ≤ agent_dist b ref)

/-- Functional rendering of `sort_agents(ref, arr, low, high)`, the in-place
Lomuto-partition quicksort of multi_aircraft.py lines 70-84: the pivot is the
last element, elements `closer` to `ref` than the pivot (ties included) go to
the left partition, the rest to the right, and both sides are sorted
recursively. -/
noncomputable def sortAgents (ref : Aircraft) : List Aircraft → List Aircraft
  | [] => []
  | a :: as =>
    let rest := (a :: as).dropLast
    let pivot := (a :: as).getLast (List.cons_ne_nil a as)
    sortAgents ref (rest.filter (fun b => closer b pivot ref)) ++
      pivot :: sortAgents ref (rest.filter (fun b => !closer b pivot ref))
termination_by l => l.length
decreasing_by
  all_goals
    simp only [List.length_cons]
    have h1 : (List.dropLast (a :: as)).length = as.length := by
      simp [List.length_dropLast]
    calc (List.filter _ (List.dropLast (a :: as))).length
        ≤ (List.dropLast (a :: as)).length := List.length_filter_le _ _
      _ = as.length := h1
      _ < as.length + 1 := Nat.lt_succ_self _

lemma sortAgents_perm (ref : Aircraft) : ∀ l : List Aircraft, (sortAgents ref l).Perm l := by
  intro l
  induction l using sortAgents.induct ref with
  | case1 => simp [sortAgents]
  | case2 a as rest pivot ih1 ih2 =>
    rw [sortAgents]
    have hrest : rest = (a :: as).dropLast := rfl
    have hpivot : pivot = (a :: as).getLast (List.cons_ne_nil a as) := rfl
    have h1 := List.Perm.append ih1 (List.Perm.cons pivot ih2)
    have h2 : (rest.filter (fun b => closer b pivot ref) ++
        pivot :: rest.filter (fun b => !closer b pivot ref)).Perm
        (pivot :: (rest.filter (fun b => closer b pivot ref) ++
          rest.filter (fun b => !closer b pivot ref))) := List.perm_middle
    have h3 : (pivot :: (rest.filter (fun b => closer b pivot ref) ++
        rest.filter (fun b => !closer b pivot ref))).Perm (pivot :: rest) :=
      List.Perm.cons pivot (List.filter_append_perm _ _)
    have h4 : (pivot :: rest).Perm (a :: as) := by
      have h := List.dropLast_append_getLast (List.cons_ne_nil a as)
      have h5 : (pivot :: rest).Perm (rest ++ [pivot]) :=
        (List.perm_append_singleton pivot rest).symm
      rw [hrest, hpivot] at h5 ⊢
      exact h5.trans (by rw [h])
    exact ((h1.trans h2).trans h3).trans h4

lemma mem_sortAgents {ref x : Aircraft} {l : List Aircraft} :
    x ∈ sortAgents ref l ↔ x ∈ l := (sortAgents_perm ref l).mem_iff

lemma sortAgents_length (ref : Aircraft) (l : List Aircraft) :
    (sortAgents ref l).length = l.length := (sortAgents_perm ref l).length_eq

/-- The quicksort orders the agents in ascending distance from `ref`. -/
lemma sortAgents_sorted (ref : Aircraft) :
    ∀ l : List Aircraft,
      (sortAgents ref l).Sorted (fun p q => agent_dist p ref ≤ agent_dist q ref) := by
  intro l
  induction l using sortAgents.induct ref with
  | case1 => simp [sortAgents]
  | case2 a as rest pivot ih1 ih2 =>
    rw [sortAgents]
    unfold List.Sorted
    rw [List.pairwise_append]
    refine ⟨ih1, ?_, ?_⟩
    · rw [List.pairwise_cons]
      refine ⟨?_, ih2⟩
      intro b hb
      have hb' := List.of_mem_filter (mem_sortAgents.mp hb)
      have hc : ¬ (agent_dist b ref ≤ agent_dist pivot ref) := by
        simpa [closer] using hb'
      exact (not_le.mp hc).le
    · intro p hp q hq
      have hp' := List.of_mem_filter (mem_sortAgents.mp hp)
      have hple : agent_dist p ref ≤ agent_dist pivot ref := by
        simpa [closer] using hp'
      rcases List.mem_cons.mp hq with h | h
      · rw [h]
        exact hple
      · have hq' := List.of_mem_filter (mem_sortAgents.mp h)
        have hc : ¬ (agent_dist q ref ≤ agent_dist pivot ref) := by
          simpa [closer] using hq'
        exact hple.trans (not_le.mp hc).le

/- Environment state (class MultiAircraftEnv). The attributes set in
`__init__` (multi_aircraft.py lines 227-269); the seeded RNG handle is
omitted (external `gym.utils.seeding`). -/

/-- Attribute record of `MultiAircraftEnv`. -/
structure MAEnv where
  t : ℕ
  aircraft : List Aircraft
  n_agents : ℕ
  continuous_action_space : Bool
  constant_n_agents : Bool
  training_mode : String
  sensor_mode : String
  sensor_capacity : ℕ
  max_time_steps : ℕ
  one_hot : Bool
  render_option : Bool
  speed_noise : ℝ
  turn_rate_noise : ℝ
  position_noise : ℝ
  angle_noise : ℝ
  reward_mech : String
  rew_arrival : ℝ
  rew_closing : ℝ
  rew_nmac : ℝ
  rew_large_turnrate : ℝ

/-- Embedding of `MultiAircraftEnv.__init__`. The four noise attributes are
assigned the literal `1e-3` in the source (lines 259-262), not the
constructor arguments of the same names. -/
def mkMultiAircraftEnv
    (continuous_action_space : Bool := true)
    (n_agents : ℕ := 10)
    (constant_n_agents : Bool := false)
    (training_mode : String := "circle")
    (sensor_mode : String := "closest")
    (sensor_capacity : ℕ := 4)
    (max_time_steps : ℕ := MAX_TIME_STEPS)
    (one_hot : Bool := false)
    (render_option : Bool := false)
    (speed_noise : ℝ := 1e-3)
    (turn_rate_noise : ℝ := 1e-3)
    (position_noise : ℝ := 1e-3)
    (angle_noise : ℝ := 1e-3)
    (reward_mech : String := "local")
    (rew_arrival : ℝ := 15)
    (rew_closing : ℝ := 2.5)
    (rew_nmac : ℝ := -15)
    (rew_large_turnrate : ℝ := -0.1) : MAEnv :=
  { t := 0
    aircraft := []
    n_agents := n_agents
    continuous_action_space := continuous_action_space
    constant_n_agents := constant_n_agents
    training_mode := training_mode
    sensor_mode := sensor_mode
    sensor_capacity := sensor_capacity
    max_time_steps := max_time_steps
    one_hot := one_hot
    render_option := render_option
    speed_noise := 1e-3
    turn_rate_noise := 1e-3
    position_noise := 1e-3
    angle_noise := 1e-3
    reward_mech := reward_mech
    rew_arrival := rew_arrival
    rew_closing := rew_closing
    rew_nmac := rew_nmac
    rew_large_turnrate := rew_large_turnrate }

/-- Embedding of `math.atan2(y, x)` as the argument of the complex number
`x + y i` (range (-pi, pi], matching CPython's atan2 on non-signed zeros). -/
noncomputable def atan2 (y x : ℝ) : ℝ := Complex.arg ⟨x, y⟩

/-- Embedding of `Aircraft.apply_action` (multi_aircraft.py lines 134-143).
`np.clip(z, lo, hi)` is `min (max z lo) hi`. -/
noncomputable def apply_action (self : Aircraft) (action : ℝ × ℝ) : Aircraft :=
  let v' := min (max (self.v + MAX_ACC * action.1 * DT) MIN_V) MAX_V
  let turn_rate' := MAX_TURN_RATE * action.2
  let heading' := norm_angle (self.heading + turn_rate' * DT)
  let x' := self.x + Real.cos heading' * v' * DT
  let y' := self.y + Real.sin heading' * v' * DT
  { self with
    v := v'
    turn_rate := turn_rate'
    heading := heading'
    x := x'
    y := y'
    prev_dist_to_dest := self.dist_to_dest
    dist_to_dest := Real.sqrt ((self.dest_y - y') ^ 2 + (self.dest_x - x') ^ 2) }

/-- Embedding of `Aircraft.get_pairwise_obs(intruder)` (lines 145-153). -/
noncomputable def get_pairwise_obs (self intruder : Aircraft) : List ℝ :=
  [agent_dist self intruder / SENSING_RANGE,
   norm_angle (atan2 (intruder.y - self.y) (intruder.x - self.x) - self.heading) / Real.pi,
   norm_angle (intruder.heading - self.heading) / Real.pi,
   intruder.v / MAX_V]

/-- The own-state block recomputed at the top of `Aircraft.get_observation`
(lines 157-163). -/
noncomputable def ownObs (self : Aircraft) : List ℝ :=
  [self.v / MAX_V,
   self.turn_rate / MAX_TURN_RATE,
   self.dist_to_dest / self.init_dist_to_dest,
   norm_angle (atan2 (self.dest_y - self.y) (self.dest_x - self.x) - self.heading) / Real.pi]

/-- The intruder list built in `get_observation` (lines 166-169): every
aircraft of the environment at distance strictly positive and at most
SENSING_RANGE from `self`. -/
noncomputable def intrudersOf (env : MAEnv) (self : Aircraft) : List Aircraft :=
  env.aircraft.filter fun agent =>
    decide (agent_dist self agent > 0) && decide (agent_dist self agent ≤ SENSING_RANGE)

/-- Sequential accumulation `obs += block i` for `i in range(n)`. -/
def blocksConcat (f : ℕ → List ℝ) : ℕ → List ℝ
  | 0 => []
  | n + 1 => blocksConcat f n ++ f n

/-- Embedding of `Aircraft.get_observation` (lines 155-190): recompute the
own-state block, collect intruders, and in `closest` sensor mode append one
pairwise block per sensor slot (the i-th closest intruder if it exists, the
sentinel block otherwise); the `sector` mode body is `pass`. The sorted
list is the in-place-sorted `intruders` list, so indexing it is indexing
`sortAgents`'s result (same length). -/
noncomputable def get_observation (env : MAEnv) (self : Aircraft) : List ℝ :=
  let obs := ownObs self
  let intruders := intrudersOf env self
  if env.sensor_mode = "sector" then
    obs
  else if env.sensor_mode = "closest" then
    if 0 < intruders.length then
      let sorted := sortAgents self intruders
      obs ++ blocksConcat
        (fun i => if h : i < sorted.length then get_pairwise_obs self sorted[i]
                  else TERM_PAIRWISE_OBS)
        env.sensor_capacity
    else
      obs ++ (List.replicate env.sensor_capacity TERM_PAIRWISE_OBS).flatten
  else
    obs

/-- Embedding of `Aircraft.nmac` (lines 192-195): some entry of the stored
observation at an intruder-distance index `4*(i+1)`, `i < sensor_capacity`,
is below `NMAC_RANGE / SENSING_RANGE`. Indexing out of range is a Python
error; the sentinel value 1 stands in as the default, unreachable on
well-formed observations. -/
def nmac (env : MAEnv) (self : Aircraft) : Prop :=
  ∃ i < env.sensor_capacity, self.obs.getD (4 * (i + 1)) 1 < NMAC_RANGE / SENSING_RANGE

/-- Embedding of `Aircraft.arrival` (lines 197-198). -/
def arrival (self : Aircraft) : Prop := self.dist_to_dest < DEST_THRESHOLD

open Classical in
/-- Embedding of `Aircraft.reward` (lines 200-211), mirroring the
sequential accumulation of the source. -/
noncomputable def reward (env : MAEnv) (self : Aircraft) : ℝ :=
  let r0 : ℝ := 0
  let r1 := if arrival self then r0 + env.rew_arrival
            else r0 + env.rew_closing * (self.prev_dist_to_dest - self.dist_to_dest)
  let r2 := if nmac env self then r1 + env.rew_nmac else r1
  let r3 := if |self.turn_rate| > 0.7 * MAX_TURN_RATE
            then r2 + env.rew_large_turnrate * |self.turn_rate| else r2
  r3

open Classical in
/-- The arrival-or-closing contribution of `reward` (the first if/else). -/
noncomputable def rewardArrivalClosingTerm (env : MAEnv) (self : Aircraft) : ℝ :=
  if arrival self then env.rew_arrival
  else env.rew_closing * (self.prev_dist_to_dest - self.dist_to_dest)

open Classical in
/-- The NMAC penalty contribution of `reward`. -/
noncomputable def rewardNmacTerm (env : MAEnv) (self : Aircraft) : ℝ :=
  if nmac env self then env.rew_nmac else 0

open Classical in
/-- The large-turn-rate penalty contribution of `reward`. -/
noncomputable def rewardTurnrateTerm (env : MAEnv) (self : Aircraft) : ℝ :=
  if |self.turn_rate| > 0.7 * MAX_TURN_RATE then env.rew_large_turnrate * |self.turn_rate| else 0

/- Population control (`MultiAircraftEnv.n_agents_control`, lines 305-316). -/

open Classical in
/-- Functional rendering of the non-constant branch (lines 311-316):
`i = 0; while i < len(a): (if a[i].arrival(): del a[i]); i += 1`. Because
`i` is incremented even after a deletion, the element that shifts into the
deleted slot is skipped unconditionally. -/
noncomputable def removeArrivedPass : List Aircraft → List Aircraft
  | [] => []
  | a :: rest =>
    if arrival a then
      match rest with
      | [] => []
      | b :: rest' => b :: removeArrivedPass rest'
    else a :: removeArrivedPass rest

open Classical in
/-- Functional rendering of the constant-population branch (lines 306-310):
each arrived aircraft at index `i` is deleted and a freshly constructed
aircraft is inserted at the same index. The constructor's random sampling
is modelled by the oracle `fresh`, giving the aircraft constructed at the
i-th position. -/
noncomputable def replaceArrived (fresh : ℕ → Aircraft) (l : List Aircraft) : List Aircraft :=
  l.mapIdx fun i a => if arrival a then fresh i else a

/-- Embedding of `MultiAircraftEnv.n_agents_control`. -/
noncomputable def n_agents_control (env : MAEnv) (fresh : ℕ → Aircraft) : MAEnv :=
  if env.constant_n_agents then { env with aircraft := replaceArrived fresh env.aircraft }
  else { env with aircraft := removeArrivedPass env.aircraft }

/-- Embedding of `MultiAircraftEnv.step(actions)` (lines 318-355): apply one
action per agent, compute the done flag from the post-action collection
length and the pre-increment time counter against the module constant
`MAX_TIME_STEPS`, recompute every observation, compute rewards, increment
`t`, and aggregate rewards according to `reward_mech`. The
`(n_agents, 2)` reshape of the joint action array is modelled by a list of
2-vectors zipped against the aircraft list (callers must supply one action
per aircraft, the reshape precondition). Rendering is a plotting side
effect and is omitted. -/
noncomputable def step (env : MAEnv) (actions : List (ℝ × ℝ)) :
    List (List ℝ) × List ℝ × Bool × MAEnv :=
  let aircraft1 := List.zipWith apply_action env.aircraft actions
  let done := decide (aircraft1.length = 0) || decide (env.t > MAX_TIME_STEPS)
  let env1 := { env with aircraft := aircraft1 }
  let aircraft2 := aircraft1.map fun ac => { ac with obs := get_observation env1 ac }
  let obs := aircraft2.map fun ac => ac.obs
  let env2 := { env1 with aircraft := aircraft2 }
  let rewards := aircraft2.map (reward env2)
  let env3 := { env2 with t := env2.t + 1 }
  if env.reward_mech = "local" then (obs, rewards, done, env3)
  else (obs, List.replicate env.n_agents (rewards.sum / (env.n_agents : ℝ)), done, env3)

/- DQN training step (rltools/algos/dqn.py). Only the TD-target arithmetic of
`DQN.step` (lines 118-121) is embedded; the network itself is abstract: the
target network is a pair of functions, `targetQactions` (compute_qactions,
the argmax action on an observation) and `targetQvals` (compute_qvals). The
batch arrays are lists over `ℚ`, combined elementwise exactly as the numpy
broadcast `rewards + discount * done * qvals` does. -/

/-- Embedding of the TD-target computation of `DQN.step`:
`batch_qtargets_B = batch_rewards_B + discount * batch_done_B *
target_q_func.compute_qvals(succ_obs, target_q_func.compute_qactions(succ_obs))`. -/
def compute_qtargets {Obs Act : Type} (targetQactions : Obs → Act) (targetQvals : Obs → Act → ℚ)
    (discount : ℚ) (rewards done : List ℚ) (succ_obs : List Obs) : List ℚ :=
  List.zipWith3 (fun r d o => r + discount * d * targetQvals o (targetQactions o))
    rewards done succ_obs

/-- Modelled from the spec: the TD target the specification prescribes,
`target = reward + discount * (1 - done) * Q_target(next_obs, a')` with `a'`
chosen by the target network. Stated only for comparison with
`compute_qtargets`, the embedding of the code. -/
def spec_qtargets {Obs Act : Type} (targetQactions : Obs → Act) (targetQvals : Obs → Act → ℚ)
    (discount : ℚ) (rewards done : List ℚ) (succ_obs : List Obs) : List ℚ :=
  List.zipWith3 (fun r d o => r + discount * (1 - d) * targetQvals o (targetQactions o))
    rewards done succ_obs

/- Checkpoint content hash (rltools/nn.py, `Model._hash_name2array`,
lines 25-32). The SHA-1 call itself is an external primitive; what is
embedded is the exact string passed to it. Equal input strings give equal
digests, so any two parameter sets mapped to the same string hash
identically. Arrays are lists over `ℚ`. -/

/-- Embedding of `np.mean(a)` for a 1-D array. -/
def np_mean (a : List ℚ) : ℚ := a.sum / a.length

/-- Embedding of `np.var(a)` (population variance) for a 1-D array. -/
def np_var (a : List ℚ) : ℚ := ((a.map fun x => (x - np_mean a) ^ 2).sum) / a.length

def np_argmax_go : List ℚ → ℕ → ℕ → ℚ → ℕ
  | [], _, besti, _ => besti
  | x :: xs, i, besti, bestv =>
    if bestv < x then np_argmax_go xs (i + 1) i x else np_argmax_go xs (i + 1) besti bestv

/-- Embedding of `np.argmax(a)`: index of the first maximal entry. -/
def np_argmax : List ℚ → ℕ
  | [] => 0
  | x :: xs => np_argmax_go xs 1 0 x

/-- Fixed-point decimal rendering of a rational with 10 fractional digits,
the `%.10f` format applied to the exact value; the scaled magnitude is
`floor(|q| * 10^10 + 1/2)` (rounding half away from zero), computed on the
reduced fraction as `(2 * |num| * 10^10 + den) / (2 * den)` in `ℕ`. -/
def fmt10 (q : ℚ) : String :=
  let sign := if q < 0 then "-" else ""
  let scaled : ℕ := (2 * q.num.natAbs * 10 ^ 10 + q.den) / (2 * q.den)
  let ip := scaled / 10 ^ 10
  let fp := scaled % 10 ^ 10
  let fs := toString fp
  sign ++ toString ip ++ "." ++ String.mk (List.replicate (10 - fs.length) '0') ++ fs

/-- Embedding of the inner `hash_array(a)`:
`'%.10f,%.10f,%d' % (np.mean(a), np.var(a), np.argmax(a))`. -/
def hash_array (a : List ℚ) : String :=
  fmt10 (np_mean a) ++ "," ++ fmt10 (np_var a) ++ "," ++ toString (np_argmax a)

/-- Embedding of the string `_hash_name2array` feeds to SHA-1:
`'|'.join('%s %s' for n, h in sorted([(name, hash_array(a)) for name, a in
name2array]))`. The generator yields the literal string `'%s %s'` once per
pair (the `%` interpolation is never applied), so the sorted pairs are
built and then discarded. Python sorts the (name, fingerprint) tuples
lexicographically; the sort key below uses the name component (the
fingerprint tiebreak cannot influence the constant-string image). -/
def hash_name2array_input (name2array : List (String × List ℚ)) : String :=
  String.intercalate "|"
    ((((name2array.map fun p => (p.1, hash_array p.2)).insertionSort
        fun x y => x.1 ≤ y.1).map fun _ => "%s %s"))

/- Online feature standardizer (rltools/nn.py, class Standardizer). The
running state is the per-dimension mean / mean-square accumulators and the
scalar count; `stdev` is the tensor `sqrt(meansq - mean^2 + eps)` recomputed
from the current accumulators. A 2-D batch of `N` points of dimension `D`
is a function `Fin N → Fin D → ℝ`; subtraction/division broadcast the
per-dimension statistics across rows exactly as numpy does. -/

/-- Running state of `Standardizer` for feature dimension `D`. -/
structure StandardizerState (D : ℕ) where
  eps : ℝ
  count : ℝ
  mean : Fin D → ℝ
  meansq : Fin D → ℝ

/-- Embedding of `self._stdev_1_D = tf.sqrt(meansq - square(mean) + eps)`. -/
noncomputable def Standardizer.stdev {D : ℕ} (s : StandardizerState D) (j : Fin D) : ℝ :=
  Real.sqrt (s.meansq j - (s.mean j) ^ 2 + s.eps)

/-- Embedding of `Standardizer.standardize(x, centered)`:
`(x - mu) / (stdev + eps)` with `mu = mean` if centered else 0. -/
noncomputable def Standardizer.standardize {N D : ℕ} (s : StandardizerState D)
    (x : Fin N → Fin D → ℝ) (centered : Bool) : Fin N → Fin D → ℝ :=
  fun i j => (x i j - (if centered then s.mean j else 0)) / (Standardizer.stdev s j + s.eps)

/-- Embedding of `Standardizer.unstandardize(y, centered)`:
`y * (stdev + eps) + mu` with `mu = mean` if centered else 0. -/
noncomputable def Standardizer.unstandardize {N D : ℕ} (s : StandardizerState D)
    (y : Fin N → Fin D → ℝ) (centered : Bool) : Fin N → Fin D → ℝ :=
  fun i j => y i j * (Standardizer.stdev s j + s.eps) + (if centered then s.mean j else 0)

/- Claim theorems. -/

/-- C3 counterexample: the claim asserts `norm_angle(-pi) = pi`, but the
embedded code returns `-pi` at the concrete input `-pi` (and `-pi ≠ pi`). -/
theorem norm_angle_claim_counterexample :
    norm_angle (-Real.pi) = -Real.pi ∧ norm_angle (-Real.pi) ≠ Real.pi := by
  refine ⟨norm_angle_neg_pi, ?_⟩
  rw [norm_angle_neg_pi]
  have h := Real.pi_pos
  intro hc
  linarith

/-- C3 (amended): for every real input angle, `norm_angle` returns a value in
the half-open interval [-pi, pi); in particular `norm_angle(-pi) = -pi` and
`norm_angle(pi) = -pi`, and the non-truncating modulo makes the function
2-pi-periodic (so negative inputs land in the same range). -/
theorem norm_angle_range :
    (∀ angle : ℝ, norm_angle angle ∈ Set.Ico (-Real.pi) Real.pi) ∧
    norm_angle (-Real.pi) = -Real.pi ∧
    norm_angle Real.pi = -Real.pi ∧
    (∀ angle : ℝ, norm_angle (angle + 2 * Real.pi) = norm_angle angle) :=
  ⟨norm_angle_mem_Ico, norm_angle_neg_pi, norm_angle_pi, norm_angle_add_two_pi⟩

/-- C10: the `MultiAircraftEnv` constructor assigns the literal 1e-3 to all
four noise attributes, ignoring the `speed_noise`, `turn_rate_noise`,
`position_noise` and `angle_noise` arguments, whatever values are passed. -/
theorem mkMultiAircraftEnv_noise_hardcoded :
    ∀ (cas : Bool) (na : ℕ) (cna : Bool) (tm sm : String) (sc mts : ℕ) (oh ro : Bool)
      (sn tn pn an : ℝ) (rm : String) (ra rc rn rl : ℝ),
      (mkMultiAircraftEnv cas na cna tm sm sc mts oh ro sn tn pn an rm ra rc rn rl).speed_noise
          = 1e-3 ∧
      (mkMultiAircraftEnv cas na cna tm sm sc mts oh ro sn tn pn an rm ra rc rn rl).turn_rate_noise
          = 1e-3 ∧
      (mkMultiAircraftEnv cas na cna tm sm sc mts oh ro sn tn pn an rm ra rc rn rl).position_noise
          = 1e-3 ∧
      (mkMultiAircraftEnv cas na cna tm sm sc mts oh ro sn tn pn an rm ra rc rn rl).angle_noise
          = 1e-3 := by
  intros
  exact ⟨rfl, rfl, rfl, rfl⟩

/-- C9: for every state of the running-statistics standardizer, every positive
eps, every 2-D input of the configured dimension and either centering flag,
`unstandardize (standardize x centered) centered = x` exactly. -/
theorem standardize_unstandardize_roundtrip {N D : ℕ} (s : StandardizerState D)
    (x : Fin N → Fin D → ℝ) (centered : Bool) (heps : 0 < s.eps) :
    Standardizer.unstandardize s (Standardizer.standardize s x centered) centered = x := by
  funext i j
  unfold Standardizer.unstandardize Standardizer.standardize
  have hpos : 0 < Standardizer.stdev s j + s.eps :=
    add_pos_of_nonneg_of_pos (Real.sqrt_nonneg _) heps
  rw [div_mul_cancel₀ _ hpos.ne']
  ring

/-- Witness for C9: the round trip at the initial statistics (mean 0,
mean-square 1), eps = 1, on the constant batch 2. -/
theorem standardize_unstandardize_roundtrip_witness :
    (0 : ℝ) < (1 : ℝ) ∧
    Standardizer.unstandardize (N := 1) (D := 1) ⟨1, 0, fun _ => 0, fun _ => 1⟩
      (Standardizer.standardize ⟨1, 0, fun _ => 0, fun _ => 1⟩ (fun _ _ => 2) true) true
      = fun _ _ => 2 :=
  ⟨by norm_num,
   standardize_unstandardize_roundtrip ⟨1, 0, fun _ => 0, fun _ => 1⟩ (fun _ _ => 2) true
     (by norm_num)⟩

/-- C1 (code evaluation): the TD target computed by `DQN.step` is
`reward + discount * done * Q`, not `reward + discount * (1 - done) * Q` as
the claim states: with discount 99/100, target-network value 2 everywhere,
rewards [1, 1] and done flags [1, 0], the code produces [149/50, 1] while
the claimed formula gives [1, 149/50]. -/
theorem compute_qtargets_uses_done_factor :
    compute_qtargets (fun _ : Unit => ()) (fun _ _ => 2) (99 / 100) [1, 1] [1, 0] [(), ()]
        = [149 / 50, 1] ∧
    spec_qtargets (fun _ : Unit => ()) (fun _ _ => 2) (99 / 100) [1, 1] [1, 0] [(), ()]
        = [1, 149 / 50] ∧
    ([149 / 50, 1] : List ℚ) ≠ [1, 149 / 50] := by
  refine ⟨?_, ?_, ?_⟩
  · simp only [compute_qtargets, List.zipWith3]
    norm_num
  · simp only [spec_qtargets, List.zipWith3]
    norm_num
  · simp only [ne_eq, List.cons.injEq, and_true]
    norm_num

/-- C2 (code evaluation): the string `_hash_name2array` feeds to SHA-1 is the
join of literal `'%s %s'` pieces (the interpolation is missing), so two
variable sets with the same name and different values — fingerprints
included — produce the identical SHA-1 input, hence the identical digest. -/
theorem hash_name2array_ignores_values :
    hash_name2array_input [("v", [0])] = hash_name2array_input [("v", [1])] ∧
    hash_array [0] ≠ hash_array [1] := by
  constructor
  · rfl
  · have hm0 : np_mean [0] = 0 := by norm_num [np_mean]
    have hm1 : np_mean [1] = 1 := by norm_num [np_mean]
    have hv0 : np_var [0] = 0 := by norm_num [np_var, np_mean]
    have hv1 : np_var [1] = 0 := by norm_num [np_var, np_mean]
    unfold hash_array
    rw [hm0, hm1, hv0, hv1]
    decide

/- Concrete fixtures for counterexamples and witnesses. -/

/-- An aircraft mid-flight toward its destination (not arrived). -/
noncomputable def sampleAircraft : Aircraft :=
  { x := 0, y := 0, heading := 0, v := 20, turn_rate := 0, dest_x := 1000, dest_y := 0,
    dist_to_dest := 1000, init_dist_to_dest := 1000, prev_dist_to_dest := 1000, obs := [] }

/-- An aircraft sitting on its destination (`dist_to_dest = 0 < 100`, arrived). -/
noncomputable def arrivedAircraft : Aircraft :=
  { x := 0, y := 0, heading := 0, v := 15, turn_rate := 0, dest_x := 0, dest_y := 0,
    dist_to_dest := 0, init_dist_to_dest := 1000, prev_dist_to_dest := 50, obs := [] }

lemma arrival_arrivedAircraft : arrival arrivedAircraft := by
  unfold arrival arrivedAircraft DEST_THRESHOLD
  norm_num

/-- An environment configured with `max_time_steps = 5` whose elapsed time is
already `t = 10`, with one live aircraft. -/
noncomputable def c4Env : MAEnv :=
  { t := 10, aircraft := [sampleAircraft], n_agents := 1, continuous_action_space := true,
    constant_n_agents := false, training_mode := "circle", sensor_mode := "closest",
    sensor_capacity := 0, max_time_steps := 5, one_hot := false, render_option := false,
    speed_noise := 1e-3, turn_rate_noise := 1e-3, position_noise := 1e-3, angle_noise := 1e-3,
    reward_mech := "local", rew_arrival := 15, rew_closing := 2.5, rew_nmac := -15,
    rew_large_turnrate := -0.1 }

/-- An environment with two consecutive arrived aircraft and
`constant_n_agents = false`. -/
noncomputable def c5Env : MAEnv :=
  { c4Env with
    t := 0
    aircraft := [arrivedAircraft, arrivedAircraft]
    n_agents := 2
    max_time_steps := MAX_TIME_STEPS }

/-- C5 (code evaluation): with `constant_n_agents = false` and two consecutive
arrived aircraft, `n_agents_control` removes only the first: deleting at
index `i` and then incrementing `i` skips the aircraft that shifted into the
freed slot, so an arrived aircraft that was in the collection beforehand
remains in it. -/
theorem n_agents_control_skips_after_delete :
    (n_agents_control c5Env (fun _ => sampleAircraft)).aircraft = [arrivedAircraft] ∧
    arrival arrivedAircraft := by
  refine ⟨?_, arrival_arrivedAircraft⟩
  unfold n_agents_control
  rw [if_neg (by simp [c5Env, c4Env])]
  show removeArrivedPass c5Env.aircraft = [arrivedAircraft]
  show removeArrivedPass [arrivedAircraft, arrivedAircraft] = [arrivedAircraft]
  unfold removeArrivedPass
  rw [if_pos arrival_arrivedAircraft]
  rfl

/-- C4 counterexample: at `c4Env` (configured `max_time_steps = 5`, elapsed
time `t = 10`, nonempty collection) the claim demands `done = true`, but
`step` returns `done = false` because the check compares `t` against the
module constant `MAX_TIME_STEPS = 2000`, not the configured attribute. -/
theorem step_ignores_configured_max_time_steps :
    (step c4Env [((0 : ℝ), (0 : ℝ))]).2.2.1 = false ∧
    c4Env.aircraft ≠ [] ∧
    c4Env.max_time_steps < c4Env.t := by
  refine ⟨?_, by simp [c4Env], by norm_num [c4Env]⟩
  unfold step
  rw [if_pos (by simp [c4Env])]
  simp [c4Env, MAX_TIME_STEPS]

/-- C4 (amended): for every environment state and every joint action with one
2-vector per live aircraft, the done flag returned by `step` is true iff the
aircraft collection is empty or the elapsed time counter `t` exceeds the
module constant `MAX_TIME_STEPS = 2000`; the configured `max_time_steps`
attribute is not consulted. -/
theorem step_done_iff (env : MAEnv) (actions : List (ℝ × ℝ))
    (hlen : actions.length = env.aircraft.length) :
    ((step env actions).2.2.1 = true ↔ env.aircraft = [] ∨ MAX_TIME_STEPS < env.t) := by
  unfold step
  have hz : (List.zipWith apply_action env.aircraft actions).length = env.aircraft.length := by
    rw [List.length_zipWith, hlen, Nat.min_self]
  by_cases hrm : env.reward_mech = "local"
  · rw [if_pos hrm]
    simp [hz, List.length_eq_zero]
  · rw [if_neg hrm]
    simp [hz, List.length_eq_zero]

/-- Witness for C4's amended theorem at the concrete environment `c4Env`. -/
theorem step_done_iff_witness :
    ([((0 : ℝ), (0 : ℝ))].length = c4Env.aircraft.length) ∧
    ((step c4Env [((0 : ℝ), (0 : ℝ))]).2.2.1 = true ↔
      c4Env.aircraft = [] ∨ MAX_TIME_STEPS < c4Env.t) :=
  ⟨by simp [c4Env], step_done_iff c4Env [((0 : ℝ), (0 : ℝ))] (by simp [c4Env])⟩

/-- C6: reward arithmetic. A non-arrived aircraft with
`prev_dist_to_dest = 1000`, `dist_to_dest = 990`, no intruder-distance
observation entry below NMAC_RANGE/SENSING_RANGE = 0.15 and
turn-rate magnitude at most 0.7 * MAX_TURN_RATE earns exactly
`rew_closing * 10 = 25` when `rew_closing = 2.5`; an arrived aircraft
(`dist_to_dest < 100`) with `rew_arrival = 15` and neither penalty triggered
earns exactly 15; and in general the reward is the sum of the
arrival-xor-closing, NMAC-penalty and large-turn-rate terms. -/
theorem reward_spec :
    (∀ (env : MAEnv) (self : Aircraft),
      env.rew_closing = 2.5 →
      self.prev_dist_to_dest = 1000 →
      self.dist_to_dest = 990 →
      (∀ i < env.sensor_capacity,
        ¬ self.obs.getD (4 * (i + 1)) 1 < NMAC_RANGE / SENSING_RANGE) →
      |self.turn_rate| ≤ 0.7 * MAX_TURN_RATE →
      reward env self = 25) ∧
    (∀ (env : MAEnv) (self : Aircraft),
      env.rew_arrival = 15 →
      self.dist_to_dest < 100 →
      (∀ i < env.sensor_capacity,
        ¬ self.obs.getD (4 * (i + 1)) 1 < NMAC_RANGE / SENSING_RANGE) →
      |self.turn_rate| ≤ 0.7 * MAX_TURN_RATE →
      reward env self = 15) ∧
    (∀ (env : MAEnv) (self : Aircraft),
      reward env self =
        rewardArrivalClosingTerm env self + rewardNmacTerm env self +
          rewardTurnrateTerm env self) := by
  refine ⟨?_, ?_, ?_⟩
  · intro env self hclos hprev hdist hnm hturn
    have hnarr : ¬ arrival self := by
      unfold arrival DEST_THRESHOLD
      rw [hdist]
      norm_num
    have hnnmac : ¬ nmac env self := by
      unfold nmac
      push_neg
      intro i hi
      exact not_lt.mp (hnm i hi)
    have hnt : ¬ |self.turn_rate| > 0.7 * MAX_TURN_RATE := not_lt.mpr hturn
    unfold reward
    simp only [if_neg hnarr, if_neg hnnmac, if_neg hnt]
    rw [hclos, hprev, hdist]
    norm_num
  · intro env self harr hdist hnm hturn
    have harr' : arrival self := by
      unfold arrival DEST_THRESHOLD
      exact hdist
    have hnnmac : ¬ nmac env self := by
      unfold nmac
      push_neg
      intro i hi
      exact not_lt.mp (hnm i hi)
    have hnt : ¬ |self.turn_rate| > 0.7 * MAX_TURN_RATE := not_lt.mpr hturn
    unfold reward
    simp only [if_pos harr', if_neg hnnmac, if_neg hnt]
    rw [harr]
    norm_num
  · intro env self
    unfold reward rewardArrivalClosingTerm rewardNmacTerm rewardTurnrateTerm
    split_ifs <;> ring

/-- An environment with sensor capacity 0 and the default reward gains
(`rew_arrival = 15`, `rew_closing = 2.5`). -/
noncomputable def c6Env : MAEnv :=
  { c4Env with t := 0, sensor_capacity := 0, max_time_steps := MAX_TIME_STEPS }

/-- An aircraft that just closed distance from 1000 to 990 with zero turn rate. -/
noncomputable def closingAircraft : Aircraft :=
  { x := 0, y := 0, heading := 0, v := 20, turn_rate := 0, dest_x := 990, dest_y := 0,
    dist_to_dest := 990, init_dist_to_dest := 1000, prev_dist_to_dest := 1000, obs := [] }

/-- Witness for C6: the two concrete reward evaluations. -/
theorem reward_spec_witness :
    reward c6Env closingAircraft = 25 ∧ reward c6Env arrivedAircraft = 15 := by
  have habs : |(0 : ℝ)| ≤ 0.7 * MAX_TURN_RATE := by
    rw [abs_zero]
    unfold MAX_TURN_RATE
    positivity
  constructor
  · exact reward_spec.1 c6Env closingAircraft (by norm_num [c6Env, c4Env]) rfl rfl
      (by intro i hi; simp [c6Env, c4Env] at hi) habs
  · exact reward_spec.2.1 c6Env arrivedAircraft (by norm_num [c6Env, c4Env])
      (by norm_num [arrivedAircraft])
      (by intro i hi; simp [c6Env, c4Env] at hi) habs

/-- C7: for every action vector, the speed produced by `apply_action` is
clamped into [MIN_V, MAX_V]; when the turn component lies in [-1, 1] the
resulting turn-rate magnitude is at most MAX_TURN_RATE; and the resulting
heading lies in the output range of `norm_angle`, the interval [-pi, pi). -/
theorem apply_action_bounds (self : Aircraft) (action : ℝ × ℝ) :
    MIN_V ≤ (apply_action self action).v ∧
    (apply_action self action).v ≤ MAX_V ∧
    (|action.2| ≤ 1 → |(apply_action self action).turn_rate| ≤ MAX_TURN_RATE) ∧
    (apply_action self action).heading ∈ Set.Ico (-Real.pi) Real.pi := by
  unfold apply_action
  refine ⟨?_, ?_, ?_, ?_⟩
  · exact le_min (le_max_right _ _) (by norm_num [MIN_V, MAX_V])
  · exact min_le_right _ _
  · intro h
    show |MAX_TURN_RATE * action.2| ≤ MAX_TURN_RATE
    have hM : 0 ≤ MAX_TURN_RATE := by
      unfold MAX_TURN_RATE
      positivity
    rw [abs_mul, abs_of_nonneg hM]
    calc MAX_TURN_RATE * |action.2| ≤ MAX_TURN_RATE * 1 := mul_le_mul_of_nonneg_left h hM
      _ = MAX_TURN_RATE := mul_one _
  · exact norm_angle_mem_Ico _

/-- Witness for C7 at a concrete aircraft and the zero action. -/
theorem apply_action_bounds_witness :
    |((0 : ℝ), (0 : ℝ)).2| ≤ 1 ∧
    MIN_V ≤ (apply_action sampleAircraft (0, 0)).v ∧
    (apply_action sampleAircraft (0, 0)).v ≤ MAX_V ∧
    |(apply_action sampleAircraft (0, 0)).turn_rate| ≤ MAX_TURN_RATE :=
  ⟨by norm_num, (apply_action_bounds sampleAircraft (0, 0)).1,
   (apply_action_bounds sampleAircraft (0, 0)).2.1,
   (apply_action_bounds sampleAircraft (0, 0)).2.2.1 (by norm_num)⟩

/- Helper lemmas about the per-slot block accumulation of `get_observation`. -/

lemma blocksConcat_length (f : ℕ → List ℝ) (n : ℕ) (hf : ∀ i < n, (f i).length = 4) :
    (blocksConcat f n).length = 4 * n := by
  induction n with
  | zero => simp [blocksConcat]
  | succ m ih =>
    rw [blocksConcat, List.length_append, ih fun i hi => hf i (hi.trans (Nat.lt_succ_self m)),
      hf m (Nat.lt_succ_self m)]
    ring

lemma blocksConcat_congr {f g : ℕ → List ℝ} {n : ℕ} (h : ∀ i < n, f i = g i) :
    blocksConcat f n = blocksConcat g n := by
  induction n with
  | zero => rfl
  | succ m ih =>
    rw [blocksConcat, blocksConcat, ih fun i hi => h i (hi.trans (Nat.lt_succ_self m)),
      h m (Nat.lt_succ_self m)]

lemma blocksConcat_const (T : List ℝ) (n : ℕ) :
    blocksConcat (fun _ => T) n = (List.replicate n T).flatten := by
  induction n with
  | zero => rfl
  | succ m ih =>
    rw [blocksConcat, ih, List.replicate_succ', List.flatten_append]
    simp

lemma blocksConcat_drop_take (f : ℕ → List ℝ) (n : ℕ) (hf : ∀ i < n, (f i).length = 4) :
    ∀ i < n, ((blocksConcat f n).drop (4 * i)).take 4 = f i := by
  induction n with
  | zero => omega
  | succ m ih =>
    intro i hi
    rw [blocksConcat]
    have hlen : (blocksConcat f m).length = 4 * m :=
      blocksConcat_length f m fun j hj => hf j (hj.trans (Nat.lt_succ_self m))
    rcases Nat.lt_succ_iff_lt_or_eq.mp hi with h | h
    · rw [List.drop_append_of_le_length (by omega)]
      rw [List.take_append_of_le_length (by rw [List.length_drop]; omega)]
      exact ih (fun j hj => hf j (hj.trans (Nat.lt_succ_self m))) i h
    · subst h
      rw [← hlen, List.drop_left]
      exact List.take_of_length_le (hf i (Nat.lt_succ_self i)).le

lemma length_get_pairwise_obs (self intruder : Aircraft) :
    (get_pairwise_obs self intruder).length = 4 := by
  simp [get_pairwise_obs]

lemma length_ownObs (self : Aircraft) : (ownObs self).length = 4 := by
  simp [ownObs]

/-- Normal form of `get_observation` in `closest` sensor mode: the own-state
block followed by one block per sensor slot, taken from the sorted intruder
list where a slot is available and the sentinel otherwise. -/
lemma get_observation_closest_eq (env : MAEnv) (self : Aircraft)
    (hmode : env.sensor_mode = "closest") :
    get_observation env self = ownObs self ++ blocksConcat
      (fun i =>
        if h : i < (sortAgents self (intrudersOf env self)).length
        then get_pairwise_obs self (sortAgents self (intrudersOf env self))[i]
        else TERM_PAIRWISE_OBS) env.sensor_capacity := by
  unfold get_observation
  rw [if_neg (by rw [hmode]; decide), if_pos hmode]
  by_cases hlen : 0 < (intrudersOf env self).length
  · rw [if_pos hlen]
  · rw [if_neg hlen]
    have hempty : intrudersOf env self = [] :=
      List.length_eq_zero.mp (Nat.eq_zero_of_not_pos hlen)
    rw [hempty, ← blocksConcat_const]
    have hsort : sortAgents self ([] : List Aircraft) = [] := by rw [sortAgents]
    congr 1
    refine blocksConcat_congr fun i hi => ?_
    rw [dif_neg]
    rw [hsort]
    simp

/-- C8: in `closest` sensor mode, for every sensor capacity and every
environment population, `get_observation` returns a vector of length exactly
`4 + 4 * sensor_capacity`; every slot beyond the available intruders holds
the sentinel block [1,1,1,1]; the slot blocks are drawn from the first
`sensor_capacity` entries of the distance-sorted intruder list (intruders
beyond the capacity are dropped); and that sorted list is an ascending-by-
distance permutation of the in-range intruders. -/
theorem get_observation_closest_spec (env : MAEnv) (self : Aircraft)
    (hmode : env.sensor_mode = "closest") :
    (get_observation env self).length = 4 + 4 * env.sensor_capacity ∧
    (∀ i, i < env.sensor_capacity → (intrudersOf env self).length ≤ i →
      ((get_observation env self).drop (4 + 4 * i)).take 4 = TERM_PAIRWISE_OBS) ∧
    get_observation env self = ownObs self ++ blocksConcat
      (fun i =>
        if h : i < ((sortAgents self (intrudersOf env self)).take env.sensor_capacity).length
        then get_pairwise_obs self
          ((sortAgents self (intrudersOf env self)).take env.sensor_capacity)[i]
        else TERM_PAIRWISE_OBS) env.sensor_capacity ∧
    (sortAgents self (intrudersOf env self)).Sorted
      (fun p q => agent_dist p self ≤ agent_dist q self) ∧
    (sortAgents self (intrudersOf env self)).Perm (intrudersOf env self) := by
  have hnf := get_observation_closest_eq env self hmode
  have hblock : ∀ i < env.sensor_capacity,
      ((fun i =>
        if h : i < (sortAgents self (intrudersOf env self)).length
        then get_pairwise_obs self (sortAgents self (intrudersOf env self))[i]
        else TERM_PAIRWISE_OBS) i).length = 4 := by
    intro i _
    simp only
    by_cases h : i < (sortAgents self (intrudersOf env self)).length
    · rw [dif_pos h]
      exact length_get_pairwise_obs _ _
    · rw [dif_neg h]
      rfl
  refine ⟨?_, ?_, ?_, sortAgents_sorted self _, sortAgents_perm self _⟩
  · rw [hnf, List.length_append, length_ownObs,
      blocksConcat_length _ _ hblock]
  · intro i hi hint
    rw [hnf]
    have h4 : (4 : ℕ) + 4 * i = (ownObs self).length + 4 * i := by
      rw [length_ownObs]
    rw [h4, List.drop_append]
    have := blocksConcat_drop_take _ env.sensor_capacity hblock i hi
    rw [this, dif_neg]
    rw [sortAgents_length]
    omega
  · rw [hnf]
    congr 1
    refine blocksConcat_congr fun i hi => ?_
    have hmin : ((sortAgents self (intrudersOf env self)).take env.sensor_capacity).length
        = min env.sensor_capacity (sortAgents self (intrudersOf env self)).length := by
      rw [List.length_take]
    by_cases h : i < (sortAgents self (intrudersOf env self)).length
    · rw [dif_pos h, dif_pos (by omega)]
      congr 1
      rw [List.getElem_take]
    · rw [dif_neg h, dif_neg (by omega)]

/-- An environment in `closest` sensor mode with capacity 1 and no aircraft. -/
noncomputable def c8Env : MAEnv :=
  { c4Env with
    t := 0
    aircraft := []
    sensor_capacity := 1
    max_time_steps := MAX_TIME_STEPS }

/-- Witness for C8 at a concrete environment with sensor capacity 1. -/
theorem get_observation_closest_spec_witness :
    c8Env.sensor_mode = "closest" ∧
    (get_observation c8Env sampleAircraft).length = 4 + 4 * 1 :=
  ⟨rfl, (get_observation_closest_spec c8Env sampleAircraft rfl).1⟩
